import Mathlib

/-!
# Verification of the wallpaper-changer orchestration layer

Shallow embedding of `src/main/main.ts` (the Electron main process of the
Wallpaper-Changer-for-macOS repository).  The embedding models:

* the filesystem state the handler touches: the category subdirectories of
  `WALLPAPER_DIR`, the files at `UNMODIFIED_WALLPAPER`, `MODIFIED_WALLPAPER`
  and `BLACK_WALLPAPER_PATH`;
* image file contents as an inductive `Img` recording the ImageMagick
  transformation that produced the bytes (copying a file preserves its value,
  so byte-identity is `Img` equality);
* every external process invocation (`exec` calls: magick, PlistBuddy,
  osascript) as an entry appended to a call log;
* `console.log` output as a string log;
* the `ipcMain.on("command")` handler as `handleCommand`.  The source handler
  is an `async` arrow function with **no** try/catch: a `throw` or a rejected
  `executeCommand` promise escapes the handler, which the embedding renders
  as `Except.error`.  External processes are modelled as succeeding whenever
  their input files exist, and as failing (rejecting the promise) when an
  input image file is missing.
* `Math.floor(Math.random() * n)` — an arbitrary index in `[0, n)` — is
  modelled by threading arbitrary naturals `randC`/`randF` and reducing them
  mod the list length.
-/

-- ==============================
-- Strings: JS `toLowerCase`, `includes`, `slice(-4)`
-- ==============================

/-- JS `String.prototype.toLowerCase`, restricted to the per-character case
mapping (ASCII-adequate, which is all the repository's category names and
extensions use). -/
def toLowerStr (s : String) : String :=
  ⟨s.toList.map Char.toLower⟩

/-- JS `String.prototype.includes` on character lists: `needle` occurs
contiguously inside `hay` (the empty needle is always found). -/
def includesCL : List Char → List Char → Bool
  | [], needle => needle.isEmpty
  | c :: rest, needle => List.isPrefixOf needle (c :: rest) || includesCL rest needle

/-- JS `hay.includes(needle)` on strings. -/
def includesStr (hay needle : String) : Bool :=
  includesCL hay.toList needle.toList

/-- JS `s.slice(-4)`: the last four characters, or the whole string when it is
shorter than four characters. -/
def sliceLast4 (s : String) : String :=
  ⟨s.toList.drop (s.toList.length - 4)⟩

/-- The extension filter of the `apply_new_wallpaper` case:
`[".jpg", ".png"].includes(join(file).slice(-4).toLowerCase())`
(`join` on a single plain directory-entry name is the identity). -/
def eligibleExt (file : String) : Bool :=
  let e := toLowerStr (sliceLast4 file)
  e = ".jpg" || e = ".png"

-- ==============================
-- Data model
-- ==============================

/-- Image file contents.  `srcBytes` is the raw content of a source file in a
category directory; the other constructors record the magick pipeline that
produced the file, with the numeric arguments interpolated into the command
line.  Two files are byte-identical exactly when their `Img` values agree. -/
inductive Img where
  | srcBytes (data : String)
  | pixelate (base : Img) (scale colors : Int)
  | blur (base : Img) (radius : Int)
  | darken (base : Img) (transparency : ℚ)
  | blackPixel
  deriving DecidableEq, Repr

/-- A file directly inside a category subdirectory. -/
structure SrcFile where
  name : String
  data : Img
  deriving DecidableEq, Repr

/-- A subdirectory of `WALLPAPER_DIR` (a "category"), as returned by
`fs.readdir(..., { withFileTypes: true })` filtered to directories. -/
structure Category where
  name : String
  files : List SrcFile
  deriving DecidableEq, Repr

/-- The well-known file paths the handler passes to external processes. -/
inductive FPath where
  | unmodifiedW   -- UNMODIFIED_WALLPAPER
  | modifiedW     -- MODIFIED_WALLPAPER
  | blackW        -- BLACK_WALLPAPER_PATH
  deriving DecidableEq, Repr

/-- One external process invocation (`exec`), with the file paths and numeric
arguments interpolated into its command string. -/
inductive Call where
  | osaToggleDarkMode
  | magickPixelate (input : FPath) (scale colors : Int) (output : FPath)
  | magickBlur (input : FPath) (radius : Int) (output : FPath)
  | magickIdentifyDims (input : FPath)
  | magickCompositeDarken (input : FPath) (transparency : ℚ) (output : FPath)
  | magickGenerateBlack (output : FPath)
  | plistBuddySet (target : FPath)
  deriving DecidableEq, Repr

/-- The state the handler reads and mutates. -/
structure St where
  cats : List Category        -- subdirectories of WALLPAPER_DIR
  unmodified : Option Img     -- file at UNMODIFIED_WALLPAPER (none = absent)
  modified : Option Img       -- file at MODIFIED_WALLPAPER
  black : Option Img          -- file at BLACK_WALLPAPER_PATH
  active : Option FPath        -- OS active-wallpaper pointer
  calls : List Call           -- external process invocations, oldest first
  log : List String           -- console.log lines, oldest first
  deriving DecidableEq, Repr

/-- Errors that escape the handler: the three `throw new Error(...)` sites of
`apply_new_wallpaper`, plus a rejected `executeCommand`/`exec` promise. -/
inductive Err where
  | noCategoriesFound                -- "No categories found."
  | noCategoriesForType (t : String) -- `No categories found for type: ...`
  | noWallpapersFound                -- "No wallpapers found in the selected category."
  | execFailed (description : String)
  deriving DecidableEq, Repr

/-- The six commands the renderer can dispatch, plus the default case. -/
inductive Cmd where
  | toggle_dark_mode
  | apply_new_wallpaper (typeArg : Option String)
  | pixelate_wallpaper (scale colors : Int)
  | blur_wallpaper (radius : Int)
  | darken_wallpaper (amount : ℚ)
  | revert_wallpaper
  | set_black_wallpaper
  | unknown (name : String)
  deriving DecidableEq, Repr

-- ==============================
-- The handler
-- ==============================

/-- Append a `console.log` line. -/
def logMsg (m : String) (st : St) : St :=
  { st with log := st.log ++ [m] }

/-- `setWallpaper`: one `exec` of PlistBuddy + `killall WallpaperAgent`,
repointing the OS active-wallpaper state at the given path. -/
def setWallpaper (p : FPath) (st : St) : St :=
  { st with calls := st.calls ++ [Call.plistBuddySet p], active := some p }

/-- The `validDirs` computation:
`args.type ? dirs.filter((dir) => dir.toLowerCase().includes(args.type.toLowerCase())) : dirs`.
JS truthiness: an absent `type` and the empty string are both falsy. -/
def validDirsOf (typeArg : Option String) (cats : List Category) : List Category :=
  match typeArg with
  | some t =>
      if t.isEmpty then cats
      else cats.filter (fun c => includesStr (toLowerStr c.name) (toLowerStr t))
  | none => cats

/-- The files eligible inside the selected category. -/
def eligibleFilesOf (c : Category) : List SrcFile :=
  c.files.filter (fun f => eligibleExt f.name)

/-- The selection logic of `apply_new_wallpaper` up to (and including) picking
the random file: enumerate directories, throw if none, filter by type, throw
if none match, pick one at random, list eligible files, throw if none, pick
one at random. -/
def selectWallpaper (randC randF : Nat) (typeArg : Option String)
    (cats : List Category) : Except Err (Category × SrcFile) :=
  if cats.length = 0 then .error .noCategoriesFound
  else
    let validDirs := validDirsOf typeArg cats
    if validDirs.length = 0 then
      .error (.noCategoriesForType (typeArg.getD "undefined"))
    else
      let selectedCategory := validDirs.getD (randC % validDirs.length) ⟨"", []⟩
      let files := eligibleFilesOf selectedCategory
      if files.length = 0 then .error .noWallpapersFound
      else .ok (selectedCategory,
        files.getD (randF % files.length) ⟨"", Img.blackPixel⟩)

/-- `Math.max(0, Math.min(1, amount / 100))`. -/
def clampTransparency (amount : ℚ) : ℚ :=
  max 0 (min 1 (amount / 100))

/-- The input the darken effect reads:
`(await fs.stat(MODIFIED_WALLPAPER).catch(() => false)) ? MODIFIED_WALLPAPER : UNMODIFIED_WALLPAPER`. -/
def darkenSourcePath (st : St) : FPath :=
  if st.modified.isSome then FPath.modifiedW else FPath.unmodifiedW

/-- How many 1×1-black-image generation invocations a call log contains. -/
def genCount (cs : List Call) : Nat :=
  cs.countP (fun c => match c with
    | Call.magickGenerateBlack _ => true
    | _ => false)

/-- The `revert_wallpaper` case, which never throws: delete the modified file
if it exists, then either re-apply the unmodified wallpaper (if present) or
log that there is nothing to revert to. -/
def revertResult (st : St) : St :=
  let st1 := if st.modified.isSome then { st with modified := none } else st
  if st1.unmodified.isSome then
    logMsg "Reverted to the unmodified wallpaper successfully."
      (setWallpaper FPath.unmodifiedW st1)
  else
    logMsg "No unmodified wallpaper found to revert to." st1

/-- The `set_black_wallpaper` case, which never throws: the `fs.access` probe
is inside try/catch (the only one in the handler), and generation succeeds. -/
def setBlackResult (st : St) : St :=
  let st1 :=
    if st.black.isSome then
      logMsg "Black wallpaper already exists." st
    else
      let stl := logMsg "Creating black wallpaper." st
      { stl with
        black := some Img.blackPixel,
        calls := stl.calls ++ [Call.magickGenerateBlack FPath.blackW] }
  logMsg "Black wallpaper set successfully." (setWallpaper FPath.blackW st1)

/-- The `ipcMain.on("command")` handler body (the `switch` statement).
`randC`/`randF` model the two `Math.random()` draws of `apply_new_wallpaper`.
No case is wrapped in try/catch (only `set_black_wallpaper` catches the
`fs.access` probe), so every `throw` and every rejected exec promise escapes
as `Except.error`. -/
def handleCommand (randC randF : Nat) (st : St) (c : Cmd) : Except Err St :=
  match c with
  | .toggle_dark_mode =>
      .ok { st with calls := st.calls ++ [Call.osaToggleDarkMode] }
  | .apply_new_wallpaper typeArg =>
      match selectWallpaper randC randF typeArg st.cats with
      | .error e => .error e
      | .ok (_, f) =>
          -- fs.copyFile(source, UNMODIFIED_WALLPAPER): full overwrite
          let st1 := { st with unmodified := some f.data }
          let st2 := setWallpaper FPath.unmodifiedW st1
          -- if (await fs.stat(MODIFIED_WALLPAPER).catch(() => false)) unlink
          let st3 := if st2.modified.isSome then { st2 with modified := none } else st2
          .ok (logMsg "New wallpaper applied successfully." st3)
  | .pixelate_wallpaper scale colors =>
      match st.unmodified with
      | none => .error (.execFailed "magick: UNMODIFIED_WALLPAPER missing")
      | some u =>
          let st1 := { st with
            modified := some (Img.pixelate u scale colors),
            calls := st.calls ++
              [Call.magickPixelate FPath.unmodifiedW scale colors FPath.modifiedW] }
          .ok (logMsg "Wallpaper pixelated successfully." (setWallpaper FPath.modifiedW st1))
  | .blur_wallpaper radius =>
      match st.unmodified with
      | none => .error (.execFailed "magick: UNMODIFIED_WALLPAPER missing")
      | some u =>
          let st1 := { st with
            modified := some (Img.blur u radius),
            calls := st.calls ++
              [Call.magickBlur FPath.unmodifiedW radius FPath.modifiedW] }
          .ok (logMsg "Wallpaper blurred successfully." (setWallpaper FPath.modifiedW st1))
  | .darken_wallpaper amount =>
      let transparency := clampTransparency amount
      let srcPath := darkenSourcePath st
      let srcImg := if st.modified.isSome then st.modified else st.unmodified
      match srcImg with
      | none => .error (.execFailed "Failed to get image dimensions")
      | some base =>
          let st1 := { st with calls := st.calls ++ [Call.magickIdentifyDims srcPath] }
          let st2 := { st1 with
            modified := some (Img.darken base transparency),
            calls := st1.calls ++
              [Call.magickCompositeDarken srcPath transparency FPath.modifiedW] }
          .ok (logMsg "Wallpaper darkened successfully using new method."
            (setWallpaper FPath.modifiedW st2))
  | .revert_wallpaper => .ok (revertResult st)
  | .set_black_wallpaper => .ok (setBlackResult st)
  | .unknown name =>
      .ok (logMsg ("Unknown command: " ++ name) st)

-- ==============================
-- Helper lemmas
-- ==============================

/-- JS `includes` finds exactly the contiguous (infix) occurrences. -/
theorem includesCL_correct (hay needle : List Char) :
    includesCL hay needle = true ↔ needle <:+: hay := by
  induction hay with
  | nil => simp [includesCL]
  | cons c rest ih =>
      simp [includesCL, ih, List.infix_cons_iff]

theorem getD_mem_of_lt {α : Type} (l : List α) (i : Nat) (d : α) (h : i < l.length) :
    l.getD i d ∈ l := by
  rw [List.getD_eq_getElem?_getD, List.getElem?_eq_getElem h]
  exact List.getElem_mem h

/-- A successful selection returns a category from the filtered list and a
file from that category's eligible files. -/
theorem selectWallpaper_ok_mem (randC randF : Nat) (typeArg : Option String)
    (cats : List Category) (cat : Category) (f : SrcFile)
    (h : selectWallpaper randC randF typeArg cats = .ok (cat, f)) :
    cat ∈ validDirsOf typeArg cats ∧ f ∈ eligibleFilesOf cat := by
  simp only [selectWallpaper] at h
  split at h
  · exact absurd h (by simp)
  · split at h
    · exact absurd h (by simp)
    · split at h
      · exact absurd h (by simp)
      · rename_i h1 h2 h3
        rw [Except.ok.injEq, Prod.mk.injEq] at h
        obtain ⟨hcat, hf⟩ := h
        subst hcat
        subst hf
        constructor
        · exact getD_mem_of_lt _ _ _ (Nat.mod_lt _ (Nat.pos_of_ne_zero h2))
        · exact getD_mem_of_lt _ _ _ (Nat.mod_lt _ (Nat.pos_of_ne_zero h3))

-- ==============================
-- C6: the category-preference filter
-- ==============================

/-- **C6.** For every non-empty preference string `t`, `apply_new_wallpaper`
with `type = t` never selects a category whose name does not contain `t` as a
case-insensitive substring: any successful selection yields a category whose
lowercased name has the lowercased `t` as a contiguous substring. -/
theorem apply_new_type_filter_respected (randC randF : Nat) (t : String)
    (cats : List Category) (cat : Category) (f : SrcFile) (ht : t ≠ "")
    (h : selectWallpaper randC randF (some t) cats = .ok (cat, f)) :
    (toLowerStr t).toList <:+: (toLowerStr cat.name).toList := by
  have hmem := (selectWallpaper_ok_mem randC randF (some t) cats cat f h).1
  simp only [validDirsOf] at hmem
  rw [if_neg (by simpa [String.isEmpty_iff] using ht)] at hmem
  have := (List.mem_filter.mp hmem).2
  simp only [includesStr] at this
  exact (includesCL_correct _ _).mp this

def catDark : Category :=
  { name := "Darkish", files := [{ name := "a.jpg", data := Img.srcBytes "A" }] }

theorem apply_new_type_filter_respected_witness :
    (toLowerStr "DARK").toList <:+: (toLowerStr "Darkish").toList :=
  apply_new_type_filter_respected 0 0 "DARK" [catDark] catDark
    { name := "a.jpg", data := Img.srcBytes "A" } (by decide) (by rfl)

-- ==============================
-- C10: the extension allow-list
-- ==============================

theorem eligibleExt_append_jpeg (base ext : String) (h : toLowerStr ext = ".jpeg") :
    eligibleExt (base ++ ext) = false := by
  have hdata : ext.data.map Char.toLower = ".jpeg".data := congrArg String.data h
  have hlen : ext.data.length = 5 := by
    have := congrArg List.length hdata
    simpa using this
  have hslice : (sliceLast4 (base ++ ext)).data = ext.data.drop 1 := by
    simp only [sliceLast4, String.toList, String.data_append, List.length_append, hlen]
    have harith : base.data.length + 5 - 4 = base.data.length + 1 := by omega
    rw [harith, ← List.drop_drop, List.drop_left]
  have hlow : toLowerStr (sliceLast4 (base ++ ext)) = "jpeg" := by
    apply String.ext
    show (sliceLast4 (base ++ ext)).data.map Char.toLower = "jpeg".data
    rw [hslice, List.map_drop, hdata]
    rfl
  simp [eligibleExt, hlow]

theorem eligibleExt_short (name : String) (h : name.data.length < 4) :
    eligibleExt name = false := by
  have hs : sliceLast4 name = name := by
    apply String.ext
    have hl0 : name.length - 4 = 0 := by
      have : name.length = name.data.length := rfl
      omega
    simp [sliceLast4, hl0]
  have hlen : (toLowerStr name).data.length = name.data.length := by
    simp [toLowerStr]
  simp only [eligibleExt, hs, Bool.or_eq_false_iff, decide_eq_false_iff_not]
  constructor
  · intro he
    rw [he] at hlen
    have h4 : (".jpg" : String).data.length = 4 := rfl
    omega
  · intro he
    rw [he] at hlen
    have h4 : (".png" : String).data.length = 4 := rfl
    omega

theorem selectWallpaper_noWallpapers (randC randF : Nat) (c : Category)
    (h : ∀ f ∈ c.files, eligibleExt f.name = false) :
    selectWallpaper randC randF none [c] = .error .noWallpapersFound := by
  have hfe : eligibleFilesOf c = [] := by
    rw [eligibleFilesOf, List.filter_eq_nil_iff]
    intro f hf
    simp [h f hf]
  simp [selectWallpaper, validDirsOf, Nat.mod_one, hfe]

/-- **C10.** A file in the selected category is eligible exactly when its last
four characters, lowercased, are ".jpg" or ".png" (the `slice(-4)` of a name
shorter than four characters is the whole name).  Consequently ".jpeg" files
(any casing) and filenames shorter than four characters are never eligible,
and a category holding only such files makes `apply_new_wallpaper` fail with
the "no wallpapers" condition. -/
theorem extension_allowlist_exact :
    (∀ name : String, eligibleExt name = true ↔
      (toLowerStr (sliceLast4 name) = ".jpg" ∨ toLowerStr (sliceLast4 name) = ".png")) ∧
    (∀ (c : Category) (f : SrcFile),
      f ∈ eligibleFilesOf c ↔ (f ∈ c.files ∧ eligibleExt f.name = true)) ∧
    (∀ base ext : String, toLowerStr ext = ".jpeg" → eligibleExt (base ++ ext) = false) ∧
    (∀ name : String, name.data.length < 4 → eligibleExt name = false) ∧
    (∀ (randC randF : Nat) (c : Category), (∀ f ∈ c.files, eligibleExt f.name = false) →
      selectWallpaper randC randF none [c] = .error .noWallpapersFound) := by
  refine ⟨?_, ?_, eligibleExt_append_jpeg, eligibleExt_short, selectWallpaper_noWallpapers⟩
  · intro name
    simp [eligibleExt]
  · intro c f
    simp [eligibleFilesOf, List.mem_filter]

def catJpegOnly : Category :=
  { name := "photos", files := [{ name := "photo.JPEG", data := Img.srcBytes "P" }] }

theorem extension_allowlist_exact_witness :
    eligibleExt ("photo" ++ ".JPEG") = false ∧
    eligibleExt "a.b" = false ∧
    selectWallpaper 0 0 none [catJpegOnly] = .error .noWallpapersFound :=
  ⟨extension_allowlist_exact.2.2.1 "photo" ".JPEG" (by decide),
   extension_allowlist_exact.2.2.2.1 "a.b" (by decide),
   extension_allowlist_exact.2.2.2.2 0 0 catJpegOnly (by decide)⟩

-- ==============================
-- C9: transparency clamping
-- ==============================

/-- **C9.** For every numeric `amount`, the transparency the darken handler
passes to the overlay command is `Math.max(0, Math.min(1, amount / 100))`,
hence always in [0,1], with `amount = 0 ↦ 0` and `amount = 100 ↦ 1`; a
successful darken records exactly that clamped value in the composite
invocation it appends. -/
theorem darken_transparency_clamped :
    (∀ a : ℚ, clampTransparency a = max 0 (min 1 (a / 100))) ∧
    (∀ a : ℚ, 0 ≤ clampTransparency a ∧ clampTransparency a ≤ 1) ∧
    clampTransparency 0 = 0 ∧
    clampTransparency 100 = 1 ∧
    (∀ (a : ℚ) (randC randF : Nat) (st st' : St),
      handleCommand randC randF st (.darken_wallpaper a) = .ok st' →
      ∃ base : Img,
        st'.modified = some (Img.darken base (clampTransparency a)) ∧
        st'.calls = st.calls ++ [Call.magickIdentifyDims (darkenSourcePath st),
          Call.magickCompositeDarken (darkenSourcePath st) (clampTransparency a) FPath.modifiedW,
          Call.plistBuddySet FPath.modifiedW]) := by
  refine ⟨fun a => rfl,
    fun a => ⟨le_max_left 0 _, max_le (by norm_num) (min_le_left 1 _)⟩,
    by norm_num [clampTransparency],
    by norm_num [clampTransparency],
    ?_⟩
  intro a randC randF st st' h
  simp only [handleCommand] at h
  split at h
  · exact absurd h (by simp)
  · rename_i base heq
    rw [Except.ok.injEq] at h
    subst h
    exact ⟨base, by simp [logMsg, setWallpaper], by simp [logMsg, setWallpaper]⟩

def exDark : St :=
  { cats := [], unmodified := some (Img.srcBytes "U"), modified := none,
    black := none, active := none, calls := [], log := [] }

def exDark' : St :=
  { cats := [], unmodified := some (Img.srcBytes "U"),
    modified := some (Img.darken (Img.srcBytes "U") (clampTransparency 50)),
    black := none, active := some FPath.modifiedW,
    calls := [Call.magickIdentifyDims FPath.unmodifiedW,
      Call.magickCompositeDarken FPath.unmodifiedW (clampTransparency 50) FPath.modifiedW,
      Call.plistBuddySet FPath.modifiedW],
    log := ["Wallpaper darkened successfully using new method."] }

theorem darken_transparency_clamped_witness :
    ∃ base : Img,
      exDark'.modified = some (Img.darken base (clampTransparency 50)) ∧
      exDark'.calls = exDark.calls ++ [Call.magickIdentifyDims (darkenSourcePath exDark),
        Call.magickCompositeDarken (darkenSourcePath exDark) (clampTransparency 50) FPath.modifiedW,
        Call.plistBuddySet FPath.modifiedW] :=
  darken_transparency_clamped.2.2.2.2 50 0 0 exDark exDark' (by rfl)

-- ==============================
-- C1: what darken reads
-- ==============================

/-- **C1.** The source darken reads (both the dimension query and the
composite input) is the modified wallpaper when that file exists at
invocation time, and the unmodified wallpaper otherwise; in particular a
darken invoked right after a successful blur reads the blurred modified
file, not the unmodified original. -/
theorem darken_reads_modified_else_unmodified :
    (∀ (a : ℚ) (randC randF : Nat) (st st' : St),
      handleCommand randC randF st (.darken_wallpaper a) = .ok st' →
      (∀ m : Img, st.modified = some m →
        st'.calls = st.calls ++ [Call.magickIdentifyDims FPath.modifiedW,
          Call.magickCompositeDarken FPath.modifiedW (clampTransparency a) FPath.modifiedW,
          Call.plistBuddySet FPath.modifiedW] ∧
        st'.modified = some (Img.darken m (clampTransparency a))) ∧
      (st.modified = none →
        st'.calls = st.calls ++ [Call.magickIdentifyDims FPath.unmodifiedW,
          Call.magickCompositeDarken FPath.unmodifiedW (clampTransparency a) FPath.modifiedW,
          Call.plistBuddySet FPath.modifiedW] ∧
        ∃ u : Img, st.unmodified = some u ∧
          st'.modified = some (Img.darken u (clampTransparency a)))) ∧
    (∀ (r : Int) (a : ℚ) (rc1 rf1 rc2 rf2 : Nat) (st st1 st2 : St) (u : Img),
      st.unmodified = some u →
      handleCommand rc1 rf1 st (.blur_wallpaper r) = .ok st1 →
      handleCommand rc2 rf2 st1 (.darken_wallpaper a) = .ok st2 →
      st1.modified = some (Img.blur u r) ∧
      st2.modified = some (Img.darken (Img.blur u r) (clampTransparency a)) ∧
      st2.calls = st1.calls ++ [Call.magickIdentifyDims FPath.modifiedW,
        Call.magickCompositeDarken FPath.modifiedW (clampTransparency a) FPath.modifiedW,
        Call.plistBuddySet FPath.modifiedW]) := by
  have hdark : ∀ (a : ℚ) (randC randF : Nat) (st st' : St),
      handleCommand randC randF st (.darken_wallpaper a) = .ok st' →
      ∃ base : Img, (if st.modified.isSome then st.modified else st.unmodified) = some base ∧
        st'.modified = some (Img.darken base (clampTransparency a)) ∧
        st'.calls = st.calls ++ [Call.magickIdentifyDims (darkenSourcePath st),
          Call.magickCompositeDarken (darkenSourcePath st) (clampTransparency a) FPath.modifiedW,
          Call.plistBuddySet FPath.modifiedW] := by
    intro a randC randF st st' h
    simp only [handleCommand] at h
    split at h
    · exact absurd h (by simp)
    · rename_i base heq
      rw [Except.ok.injEq] at h
      subst h
      exact ⟨base, heq, by simp [logMsg, setWallpaper], by simp [logMsg, setWallpaper]⟩
  constructor
  · intro a randC randF st st' h
    obtain ⟨base, hbase, hmod, hcalls⟩ := hdark a randC randF st st' h
    constructor
    · intro m hm
      rw [hm] at hbase
      simp at hbase
      subst hbase
      rw [darkenSourcePath, if_pos (by simp [hm])] at hcalls
      exact ⟨hcalls, hmod⟩
    · intro hm
      rw [hm] at hbase
      simp at hbase
      rw [darkenSourcePath, if_neg (by simp [hm])] at hcalls
      exact ⟨hcalls, base, hbase, hmod⟩
  · intro r a rc1 rf1 rc2 rf2 st st1 st2 u hu hblur hdarken
    have h1 : st1.modified = some (Img.blur u r) := by
      simp only [handleCommand, hu] at hblur
      rw [Except.ok.injEq] at hblur
      subst hblur
      simp [logMsg, setWallpaper]
    obtain ⟨base, hbase, hmod, hcalls⟩ := hdark a rc2 rf2 st1 st2 hdarken
    rw [h1] at hbase
    simp at hbase
    subst hbase
    rw [darkenSourcePath, if_pos (by simp [h1])] at hcalls
    exact ⟨h1, hmod, hcalls⟩

def exBlurDark1 : St :=
  { exDark with
    modified := some (Img.blur (Img.srcBytes "U") 65),
    active := some FPath.modifiedW,
    calls := [Call.magickBlur FPath.unmodifiedW 65 FPath.modifiedW,
      Call.plistBuddySet FPath.modifiedW],
    log := ["Wallpaper blurred successfully."] }

def exBlurDark2 : St :=
  { exBlurDark1 with
    modified := some (Img.darken (Img.blur (Img.srcBytes "U") 65) (clampTransparency 50)),
    calls := exBlurDark1.calls ++ [Call.magickIdentifyDims FPath.modifiedW,
      Call.magickCompositeDarken FPath.modifiedW (clampTransparency 50) FPath.modifiedW,
      Call.plistBuddySet FPath.modifiedW],
    log := exBlurDark1.log ++ ["Wallpaper darkened successfully using new method."] }

theorem darken_reads_modified_else_unmodified_witness :
    exBlurDark1.modified = some (Img.blur (Img.srcBytes "U") 65) ∧
    exBlurDark2.modified =
      some (Img.darken (Img.blur (Img.srcBytes "U") 65) (clampTransparency 50)) ∧
    exBlurDark2.calls = exBlurDark1.calls ++ [Call.magickIdentifyDims FPath.modifiedW,
      Call.magickCompositeDarken FPath.modifiedW (clampTransparency 50) FPath.modifiedW,
      Call.plistBuddySet FPath.modifiedW] :=
  darken_reads_modified_else_unmodified.2 65 50 0 0 0 0 exDark exBlurDark1 exBlurDark2
    (Img.srcBytes "U") (by rfl) (by rfl) (by rfl)

-- ==============================
-- C5: pixelate/blur read the unmodified file; effects never write it
-- ==============================

/-- **C5.** Pixelate and blur always read the unmodified wallpaper — even
when a modified wallpaper exists — and every effect operation (pixelate,
blur, darken) writes its output only to the modified-wallpaper path, leaving
the unmodified file's contents unchanged. -/
theorem effects_read_unmodified_write_modified :
    (∀ (s c : Int) (randC randF : Nat) (st st' : St),
      handleCommand randC randF st (.pixelate_wallpaper s c) = .ok st' →
      ∃ u : Img, st.unmodified = some u ∧
        st'.calls = st.calls ++ [Call.magickPixelate FPath.unmodifiedW s c FPath.modifiedW,
          Call.plistBuddySet FPath.modifiedW] ∧
        st'.modified = some (Img.pixelate u s c) ∧
        st'.unmodified = st.unmodified) ∧
    (∀ (r : Int) (randC randF : Nat) (st st' : St),
      handleCommand randC randF st (.blur_wallpaper r) = .ok st' →
      ∃ u : Img, st.unmodified = some u ∧
        st'.calls = st.calls ++ [Call.magickBlur FPath.unmodifiedW r FPath.modifiedW,
          Call.plistBuddySet FPath.modifiedW] ∧
        st'.modified = some (Img.blur u r) ∧
        st'.unmodified = st.unmodified) ∧
    (∀ (a : ℚ) (randC randF : Nat) (st st' : St),
      handleCommand randC randF st (.darken_wallpaper a) = .ok st' →
      st'.unmodified = st.unmodified ∧
      st'.calls = st.calls ++ [Call.magickIdentifyDims (darkenSourcePath st),
        Call.magickCompositeDarken (darkenSourcePath st) (clampTransparency a) FPath.modifiedW,
        Call.plistBuddySet FPath.modifiedW]) := by
  refine ⟨?_, ?_, ?_⟩
  · intro s c randC randF st st' h
    simp only [handleCommand] at h
    split at h
    · exact absurd h (by simp)
    · rename_i u heq
      rw [Except.ok.injEq] at h
      subst h
      exact ⟨u, heq, by simp [logMsg, setWallpaper], by simp [logMsg, setWallpaper],
        by simp [logMsg, setWallpaper]⟩
  · intro r randC randF st st' h
    simp only [handleCommand] at h
    split at h
    · exact absurd h (by simp)
    · rename_i u heq
      rw [Except.ok.injEq] at h
      subst h
      exact ⟨u, heq, by simp [logMsg, setWallpaper], by simp [logMsg, setWallpaper],
        by simp [logMsg, setWallpaper]⟩
  · intro a randC randF st st' h
    simp only [handleCommand] at h
    split at h
    · exact absurd h (by simp)
    · rename_i base heq
      rw [Except.ok.injEq] at h
      subst h
      exact ⟨by simp [logMsg, setWallpaper], by simp [logMsg, setWallpaper]⟩

def exPix : St :=
  { cats := [], unmodified := some (Img.srcBytes "U"),
    modified := some (Img.blur (Img.srcBytes "U") 65),
    black := none, active := some FPath.modifiedW, calls := [], log := [] }

def exPix' : St :=
  { exPix with
    modified := some (Img.pixelate (Img.srcBytes "U") 6 24),
    calls := [Call.magickPixelate FPath.unmodifiedW 6 24 FPath.modifiedW,
      Call.plistBuddySet FPath.modifiedW],
    log := ["Wallpaper pixelated successfully."] }

theorem effects_read_unmodified_write_modified_witness :
    ∃ u : Img, exPix.unmodified = some u ∧
      exPix'.calls = exPix.calls ++ [Call.magickPixelate FPath.unmodifiedW 6 24 FPath.modifiedW,
        Call.plistBuddySet FPath.modifiedW] ∧
      exPix'.modified = some (Img.pixelate u 6 24) ∧
      exPix'.unmodified = exPix.unmodified :=
  effects_read_unmodified_write_modified.1 6 24 0 0 exPix exPix' (by rfl)

-- ==============================
-- C4: apply_new_wallpaper overwrites the unmodified file, clears the modified one
-- ==============================

/-- **C4.** After every successful `apply_new_wallpaper`, the unmodified
wallpaper file holds exactly the bytes of the randomly chosen source file
(full overwrite copy) and the modified wallpaper file is absent, whether or
not one existed before the call. -/
theorem apply_new_copies_and_deletes_modified :
    ∀ (randC randF : Nat) (typeArg : Option String) (st st' : St),
      handleCommand randC randF st (.apply_new_wallpaper typeArg) = .ok st' →
      ∃ cat f, selectWallpaper randC randF typeArg st.cats = .ok (cat, f) ∧
        st'.unmodified = some f.data ∧
        st'.modified = none ∧
        st'.active = some FPath.unmodifiedW := by
  intro randC randF typeArg st st' h
  simp only [handleCommand] at h
  split at h
  · exact absurd h (by simp)
  · rename_i res cat f heq
    rw [Except.ok.injEq] at h
    subst h
    refine ⟨cat, f, heq, ?_, ?_, ?_⟩
    · cases hm : st.modified <;> simp [logMsg, setWallpaper, hm]
    · cases hm : st.modified <;> simp [logMsg, setWallpaper, hm]
    · cases hm : st.modified <;> simp [logMsg, setWallpaper, hm]

def exApply : St :=
  { cats := [catDark], unmodified := some (Img.srcBytes "OLD"),
    modified := some (Img.blur (Img.srcBytes "OLD") 65),
    black := none, active := some FPath.modifiedW, calls := [], log := [] }

def exApply' : St :=
  { exApply with
    unmodified := some (Img.srcBytes "A"),
    modified := none,
    active := some FPath.unmodifiedW,
    calls := [Call.plistBuddySet FPath.unmodifiedW],
    log := ["New wallpaper applied successfully."] }

theorem apply_new_copies_and_deletes_modified_witness :
    ∃ cat f, selectWallpaper 0 0 none exApply.cats = .ok (cat, f) ∧
      exApply'.unmodified = some f.data ∧
      exApply'.modified = none ∧
      exApply'.active = some FPath.unmodifiedW :=
  apply_new_copies_and_deletes_modified 0 0 none exApply exApply' (by rfl)

-- ==============================
-- C7: exact failure conditions of apply_new_wallpaper
-- ==============================

theorem selectWallpaper_error_iff (randC randF : Nat) (typeArg : Option String)
    (cats : List Category) :
    (∃ e, selectWallpaper randC randF typeArg cats = .error e) ↔
      (cats.length = 0 ∨ (validDirsOf typeArg cats).length = 0 ∨
        (eligibleFilesOf ((validDirsOf typeArg cats).getD
          (randC % (validDirsOf typeArg cats).length) ⟨"", []⟩)).length = 0) := by
  simp only [selectWallpaper]
  split_ifs <;> simp_all

/-- **C7.** `apply_new_wallpaper` raises an error exactly when the source
directory has no subdirectories, or the preference-filtered set of
subdirectories is empty, or the selected subdirectory contains no file with
an allow-listed extension; otherwise it proceeds to the copy and the
wallpaper-set step. -/
theorem apply_new_failure_conditions :
    ∀ (randC randF : Nat) (typeArg : Option String) (st : St),
      ((∃ e, handleCommand randC randF st (.apply_new_wallpaper typeArg) = .error e) ↔
        (st.cats.length = 0 ∨ (validDirsOf typeArg st.cats).length = 0 ∨
          (eligibleFilesOf ((validDirsOf typeArg st.cats).getD
            (randC % (validDirsOf typeArg st.cats).length) ⟨"", []⟩)).length = 0)) ∧
      (∀ st', handleCommand randC randF st (.apply_new_wallpaper typeArg) = .ok st' →
        st'.unmodified.isSome = true ∧
        st'.calls = st.calls ++ [Call.plistBuddySet FPath.unmodifiedW]) := by
  intro randC randF typeArg st
  constructor
  · rw [← selectWallpaper_error_iff randC randF typeArg st.cats]
    constructor
    · rintro ⟨e, he⟩
      simp only [handleCommand] at he
      split at he
      · rename_i e' heq
        exact ⟨e', heq⟩
      · exact absurd he (by simp)
    · rintro ⟨e, he⟩
      exact ⟨e, by simp [handleCommand, he]⟩
  · intro st' h
    simp only [handleCommand] at h
    split at h
    · exact absurd h (by simp)
    · rename_i res cat f heq
      rw [Except.ok.injEq] at h
      subst h
      constructor
      · cases hm : st.modified <;> simp [logMsg, setWallpaper, hm]
      · cases hm : st.modified <;> simp [logMsg, setWallpaper, hm]

theorem apply_new_failure_conditions_witness :
    exApply'.unmodified.isSome = true ∧
    exApply'.calls = exApply.calls ++ [Call.plistBuddySet FPath.unmodifiedW] :=
  (apply_new_failure_conditions 0 0 none exApply).2 exApply' (by rfl)

-- ==============================
-- C3: black-wallpaper generation runs at most once
-- ==============================

/-- **C3.** Two consecutive `set_black_wallpaper` invocations (with no
deletion of the cached file in between) run the 1×1 black-image generation at
most once: both invocations succeed, the first adds at most one generation
call, and the second detects the cached file and appends only the
wallpaper-set step (no generation call at all). -/
theorem set_black_generates_at_most_once :
    ∀ (rc1 rf1 rc2 rf2 : Nat) (st : St),
      handleCommand rc1 rf1 st .set_black_wallpaper = .ok (setBlackResult st) ∧
      handleCommand rc2 rf2 (setBlackResult st) .set_black_wallpaper =
        .ok (setBlackResult (setBlackResult st)) ∧
      genCount (setBlackResult st).calls ≤ genCount st.calls + 1 ∧
      (setBlackResult (setBlackResult st)).calls =
        (setBlackResult st).calls ++ [Call.plistBuddySet FPath.blackW] ∧
      genCount (setBlackResult (setBlackResult st)).calls =
        genCount (setBlackResult st).calls := by
  intro rc1 rf1 rc2 rf2 st
  refine ⟨rfl, rfl, ?_, ?_, ?_⟩
  · cases hb : st.black <;>
      simp [setBlackResult, logMsg, setWallpaper, genCount, List.countP_append, hb]
  · cases hb : st.black <;>
      simp [setBlackResult, logMsg, setWallpaper, hb]
  · cases hb : st.black <;>
      simp [setBlackResult, logMsg, setWallpaper, genCount, List.countP_append, hb]

-- ==============================
-- C8: revert deletes the modified file and never errors
-- ==============================

/-- **C8.** `revert_wallpaper` deletes the modified wallpaper if it exists,
then: if the unmodified wallpaper exists it is applied as the active
wallpaper and success is logged; if it does not exist, only an informational
line is logged and no wallpaper-set step runs — in neither case is an error
raised. -/
theorem revert_deletes_modified_never_errors :
    ∀ (randC randF : Nat) (st : St),
      handleCommand randC randF st .revert_wallpaper = .ok (revertResult st) ∧
      (revertResult st).modified = none ∧
      (st.unmodified.isSome = true →
        (revertResult st).active = some FPath.unmodifiedW ∧
        (revertResult st).calls = st.calls ++ [Call.plistBuddySet FPath.unmodifiedW] ∧
        (revertResult st).log =
          st.log ++ ["Reverted to the unmodified wallpaper successfully."]) ∧
      (st.unmodified = none →
        (revertResult st).calls = st.calls ∧
        (revertResult st).active = st.active ∧
        (revertResult st).log =
          st.log ++ ["No unmodified wallpaper found to revert to."]) := by
  intro randC randF st
  refine ⟨rfl, ?_, ?_, ?_⟩
  · cases hm : st.modified <;> cases hu : st.unmodified <;>
      simp [revertResult, logMsg, setWallpaper, hm, hu]
  · intro hu
    cases hm : st.modified <;>
      simp [revertResult, logMsg, setWallpaper, hm, hu]
  · intro hu
    cases hm : st.modified <;>
      simp [revertResult, logMsg, setWallpaper, hm, hu]

def exRev : St :=
  { cats := [], unmodified := none, modified := some Img.blackPixel,
    black := none, active := some FPath.modifiedW, calls := [], log := [] }

theorem revert_deletes_modified_never_errors_witness :
    (revertResult exRev).calls = exRev.calls ∧
    (revertResult exRev).active = exRev.active ∧
    (revertResult exRev).log =
      exRev.log ++ ["No unmodified wallpaper found to revert to."] :=
  (revert_deletes_modified_never_errors 0 0 exRev).2.2.2 (by rfl)

-- ==============================
-- C2: failures are NOT caught by the command handler
-- ==============================

def emptySt : St :=
  { cats := [], unmodified := none, modified := none, black := none,
    active := none, calls := [], log := [] }

/-- **C2 counterexample.** The claim says every failure is caught inside the
command handler, logged with the command name, and does not propagate out of
the handler.  The code has no try/catch around the `switch`: at a state with
no category subdirectories, `apply_new_wallpaper` ends in the thrown
"No categories found." error escaping the handler (a rejected promise), not
in a caught-and-logged idle return. -/
theorem handler_failure_uncaught_cex :
    handleCommand 0 0 emptySt (.apply_new_wallpaper none) =
      .error Err.noCategoriesFound := by
  rfl

/-- **C2 amended.** For every failure kind the command handler reaches, the
failure propagates out of the handler as an error (the `async` handler's
rejected promise) instead of being caught: selection failures escape as the
thrown errors, and a missing input file makes the corresponding external
invocation fail and escape.  No partial-state rollback is performed (these
failures occur before any state mutation), and no log line with the command
name is written by the handler; only `executeCommand` itself logs external
failures, with the shell command text. -/
theorem command_failures_propagate :
    ∀ (randC randF : Nat) (st : St) (typeArg : Option String) (s c r : Int) (a : ℚ),
      (st.cats = [] → handleCommand randC randF st (.apply_new_wallpaper typeArg) =
        .error Err.noCategoriesFound) ∧
      (st.unmodified = none → handleCommand randC randF st (.pixelate_wallpaper s c) =
        .error (Err.execFailed "magick: UNMODIFIED_WALLPAPER missing")) ∧
      (st.unmodified = none → handleCommand randC randF st (.blur_wallpaper r) =
        .error (Err.execFailed "magick: UNMODIFIED_WALLPAPER missing")) ∧
      (st.unmodified = none → st.modified = none →
        handleCommand randC randF st (.darken_wallpaper a) =
          .error (Err.execFailed "Failed to get image dimensions")) := by
  intro randC randF st typeArg s c r a
  refine ⟨?_, ?_, ?_, ?_⟩
  · intro hc
    simp [handleCommand, selectWallpaper, hc]
  · intro hu
    simp [handleCommand, hu]
  · intro hu
    simp [handleCommand, hu]
  · intro hu hm
    simp [handleCommand, hu, hm]

theorem command_failures_propagate_witness :
    handleCommand 1 1 emptySt (.apply_new_wallpaper (some "dark")) =
      .error Err.noCategoriesFound ∧
    handleCommand 1 1 emptySt (.pixelate_wallpaper 6 24) =
      .error (Err.execFailed "magick: UNMODIFIED_WALLPAPER missing") ∧
    handleCommand 1 1 emptySt (.blur_wallpaper 65) =
      .error (Err.execFailed "magick: UNMODIFIED_WALLPAPER missing") ∧
    handleCommand 1 1 emptySt (.darken_wallpaper 50) =
      .error (Err.execFailed "Failed to get image dimensions") :=
  ⟨(command_failures_propagate 1 1 emptySt (some "dark") 6 24 65 50).1 rfl,
   (command_failures_propagate 1 1 emptySt (some "dark") 6 24 65 50).2.1 rfl,
   (command_failures_propagate 1 1 emptySt (some "dark") 6 24 65 50).2.2.1 rfl,
   (command_failures_propagate 1 1 emptySt (some "dark") 6 24 65 50).2.2.2 rfl rfl⟩
